import Mathlib

/-!
Verification development for the Auto-Documenter dataset profiler.

The embedding models the in-memory dataframe that `parser.analyze_file`
and the dashboard script `app.py` operate on.  Cell values are either a
number, a text value, or a missing cell (pandas NaN).  Quantities the
code computes with floating point are modelled over the rationals;
pandas/numpy NaN results are modelled as `Option.none`, since every NaN
in this code arises from a division whose denominator is zero and then
propagates through the remaining arithmetic.

Batteries marks the arithmetic of `Rat` irreducible, which blocks kernel
evaluation of concrete profiler runs; the development only restores the
default transparency, it changes no definition.
-/

set_option allowUnsafeReducibility true
attribute [local semireducible] Rat.mul Rat.add Rat.sub Rat.inv Rat.ofScientific

namespace AutoDoc

/-- A cell of the dataframe: a number, a text value, or missing (NaN). -/
inductive Val where
  | num (q : ℚ)
  | str (s : String)
  | missing
deriving DecidableEq, Repr

/-- In-memory rectangular dataset: ordered column names plus rows of cells. -/
structure Dataset where
  colNames : List String
  rows : List (List Val)
deriving DecidableEq, Repr

/-- Number of columns (`df.shape[1]`, `len(df.columns)`). -/
def Dataset.ncols (d : Dataset) : ℕ := d.colNames.length

/-- Number of rows (`df.shape[0]`, `len(df)`). -/
def Dataset.nrows (d : Dataset) : ℕ := d.rows.length

/-- Column `j` of the dataset (`df[col]`), padding short rows with NaN. -/
def Dataset.col (d : Dataset) (j : ℕ) : List Val :=
  d.rows.map (fun r => r.getD j Val.missing)

/-- Is the cell a text value? -/
def Val.isStr : Val → Bool
  | .str _ => true
  | _ => false

/-- Is the cell missing (`pd.isna`)? -/
def Val.isMissing : Val → Bool
  | .missing => true
  | _ => false

/-- Round half to even, as the Python builtin `round` behaves on exact
decimal values. -/
def roundHalfEven (x : ℚ) : ℤ :=
  if x - ⌊x⌋ < 1/2 then ⌊x⌋
  else if 1/2 < x - ⌊x⌋ then ⌊x⌋ + 1
  else if ⌊x⌋ % 2 = 0 then ⌊x⌋ else ⌊x⌋ + 1

/-- `round(x, 2)`: round to the nearest hundredth, halves to even. -/
def round2 (x : ℚ) : ℚ := (roundHalfEven (x * 100) : ℚ) / 100

/-- Arithmetic mean of a list of rationals (0 on the empty list, which the
callers never rely on). -/
def qmean (l : List ℚ) : ℚ := l.sum / (l.length : ℚ)

/-- pandas dtype detection on the loaded frame, as `select_dtypes` sees it:
a column receives a numeric dtype exactly when it is nonempty and has no
text value (an all-missing column is float NaN, hence numeric; a column of
an empty frame stays object). -/
def numericDtype (c : List Val) : Bool :=
  !c.isEmpty && c.all (fun v => !v.isStr)

/-- Indices of the numeric columns
(`df.select_dtypes(include=['number']).columns`). -/
def Dataset.numericIdx (d : Dataset) : List ℕ :=
  (List.range d.ncols).filter (fun j => numericDtype (d.col j))

/-- Indices of the categorical columns
(`df.select_dtypes(exclude=['number']).columns`). -/
def Dataset.categoricalIdx (d : Dataset) : List ℕ :=
  (List.range d.ncols).filter (fun j => !(numericDtype (d.col j)))

/-- `numeric_count = len(numeric_cols)`. -/
def numericCount (d : Dataset) : ℕ := d.numericIdx.length

/-- `categorical_count = len(categorical_cols)`. -/
def categoricalCount (d : Dataset) : ℕ := d.categoricalIdx.length

/-- Missing cells of one column (`df[col].isna().sum()`). -/
def missingCount (c : List Val) : ℕ := c.countP Val.isMissing

/-! ### app.py metrics (lines 191-221) -/

/-- One entry of `missing_pct = (df.isna().sum() / len(df) * 100).round(2)`:
NaN when the frame has no rows (pandas gives `0/0 = NaN`). -/
def colMissingPct (d : Dataset) (j : ℕ) : Option ℚ :=
  if d.nrows = 0 then none
  else some (round2 ((missingCount (d.col j) : ℚ) / (d.nrows : ℚ) * 100))

/-- The defined entries of the `missing_pct` series, in column order. -/
def missingPctList (d : Dataset) : List ℚ :=
  (List.range d.ncols).filterMap (colMissingPct d)

/-- `missing_pct.mean()`: pandas skips NaN entries and yields NaN for an
empty or all-NaN series. -/
def missingPctMean (d : Dataset) : Option ℚ :=
  let l := missingPctList d
  if l.isEmpty then none else some (qmean l)

/-- `completeness = round(100 - missing_pct.mean(), 2)` (app.py line 195). -/
def completenessApp (d : Dataset) : Option ℚ :=
  (missingPctMean d).map (fun m => round2 (100 - m))

/-- Rows equal to an earlier row, the count `df.duplicated().sum()`
(`keep='first'`: each later occurrence of a seen row counts). -/
def dupCountAux : List (List Val) → List (List Val) → ℕ
  | _, [] => 0
  | seen, r :: rs => (if r ∈ seen then 1 else 0) + dupCountAux (r :: seen) rs

/-- Number of duplicated rows of the dataset. -/
def Dataset.dupCount (d : Dataset) : ℕ := dupCountAux [] d.rows

/-- `duplicate_pct = round(df.duplicated().mean() * 100, 2)` (app.py line
196): NaN on an empty frame, since the mean of an empty series is NaN. -/
def duplicatePct (d : Dataset) : Option ℚ :=
  if d.nrows = 0 then none
  else some (round2 ((d.dupCount : ℚ) / (d.nrows : ℚ) * 100))

/-- `min(count/total if total > 0 else 0, 1)`, the guarded ratio terms of
the readiness score (app.py lines 200-201). -/
def ratioTerm (count total : ℕ) : ℚ :=
  min (if 0 < total then (count : ℚ) / (total : ℚ) else 0) 1

/-- `ml_ready_score` (app.py lines 197-203); NaN propagates from the
completeness and duplicate percentages.  The literals 4/10, 3/10 and
15/100 are the weights 0.4, 0.3 and 0.15. -/
def mlReadyScore (d : Dataset) : Option ℚ :=
  match completenessApp d, duplicatePct d with
  | some c, some p =>
      some (round2 (c * (4/10) + (100 - p) * (3/10)
        + ratioTerm (numericCount d) d.ncols * 100 * (15/100)
        + ratioTerm (categoricalCount d) d.ncols * 100 * (15/100)))
  | _, _ => none

/-- The single suggestion bucket the dashboard prints for a score
(app.py lines 216-221). -/
def suggestionsFor (s : ℚ) : List String :=
  if s < 40 then ["Linear/Logistic Regression", "Naive Bayes"]
  else if s < 70 then ["Decision Tree", "Random Forest", "KNN", "SVM"]
  else ["XGBoost", "Neural Networks", "Ensemble Models", "AutoML"]

/-- The suggested-algorithm list of the dashboard run, NaN score giving
no defined bucket. -/
def mlSuggestions (d : Dataset) : Option (List String) :=
  (mlReadyScore d).map suggestionsFor

/-! ### app.py correlation (lines 170-175) -/

/-- Rows where both columns hold a number, as pandas pairs observations
for `df[numeric_cols].corr()`. -/
def pairedObs (x y : List Val) : List (ℚ × ℚ) :=
  (x.zip y).filterMap (fun p =>
    match p with
    | (.num a, .num b) => some (a, b)
    | _ => none)

/-- Centred sum of squares, the numerator of the variance; it is zero
exactly on constant (or empty) data. -/
def varNum (l : List ℚ) : ℚ := (l.map (fun a => (a - qmean l)^2)).sum

/-- Centred cross product, the numerator of the covariance. -/
def covNum (xy : List (ℚ × ℚ)) : ℚ :=
  (xy.map (fun p =>
    (p.1 - qmean (xy.map Prod.fst)) * (p.2 - qmean (xy.map Prod.snd)))).sum

/-- A defined Pearson entry, carried symbolically: the coefficient is
`cov / sqrt(vx * vy)`, irrational in general, so the triple keeps the
exact data. -/
structure CorrVal where
  cov : ℚ
  vx : ℚ
  vy : ℚ
deriving DecidableEq, Repr

/-- One cell of `df[numeric_cols].corr()`: NaN (none) when either column
is constant over the paired observations, since pandas divides by the
zero standard deviation. -/
def corrEntry (x y : List Val) : Option CorrVal :=
  let xy := pairedObs x y
  let vx := varNum (xy.map Prod.fst)
  let vy := varNum (xy.map Prod.snd)
  if vx = 0 ∨ vy = 0 then none else some ⟨covNum xy, vx, vy⟩

/-- All unordered pairs of a list, each once, in order. -/
def unorderedPairs : List ℕ → List (ℕ × ℕ)
  | [] => []
  | a :: rest => rest.map (fun b => (a, b)) ++ unorderedPairs rest

/-- The off-diagonal upper triangle of `df[numeric_cols].corr()`: one
entry per unordered pair of numeric columns, NaN entries included. -/
def corrMatrix (d : Dataset) : List (ℕ × ℕ × Option CorrVal) :=
  (unorderedPairs d.numericIdx).map (fun p =>
    (p.1, p.2, corrEntry (d.col p.1) (d.col p.2)))

/-! ### parser.py analyze_file -/

/-- `df.size`: rows times columns. -/
def totalCells (d : Dataset) : ℕ := d.nrows * d.ncols

/-- `df.isna().sum().sum()`: missing cells over the whole frame. -/
def totalMissing (d : Dataset) : ℕ :=
  ((List.range d.ncols).map (fun j => missingCount (d.col j))).sum

/-- The non-missing cells of the frame. -/
def nonMissingCells (d : Dataset) : ℕ := totalCells d - totalMissing d

/-- `completeness = round(((total_cells - total_missing) / total_cells) * 100, 2)`
(parser.py lines 46-48).  On zero cells numpy yields `0/0 = NaN` with a
warning, not an exception. -/
def completenessParser (d : Dataset) : Option ℚ :=
  if totalCells d = 0 then none
  else some (round2 (((totalCells d : ℚ) - (totalMissing d : ℚ))
    / (totalCells d : ℚ) * 100))

/-- The summary dict `analyze_file` returns (parser.py lines 50-59). -/
structure Summary where
  rowCount : ℕ
  columnCount : ℕ
  columnNames : List String
  numericCnt : ℕ
  categoricalCnt : ℕ
  numericRatio : ℚ
  categoricalRatio : ℚ
  completeness : Option ℚ
deriving DecidableEq, Repr

/-- The summary of a frame with at least one column. -/
def mkSummary (d : Dataset) : Summary :=
  { rowCount := d.nrows
    columnCount := d.ncols
    columnNames := d.colNames
    numericCnt := numericCount d
    categoricalCnt := categoricalCount d
    numericRatio := round2 ((numericCount d : ℚ) / (d.ncols : ℚ) * 100)
    categoricalRatio := round2 ((categoricalCount d : ℚ) / (d.ncols : ℚ) * 100)
    completeness := completenessParser d }

/-- What pandas made of the uploaded bytes: a frame, or a raised parse
error (malformed CSV/Excel/JSON). -/
inductive ParseOutcome where
  | table (d : Dataset)
  | failure (msg : String)
deriving DecidableEq, Repr

/-- An uploaded file as `analyze_file(file_path, file_name)` receives it. -/
structure RawFile where
  name : String
  ext : String
  outcome : ParseOutcome
deriving DecidableEq, Repr

/-- The value `analyze_file` returns. -/
inductive AnalyzeResult where
  | error (msg : String)
  | pythonDoc (file : String)
  | report (summary : Summary)
deriving DecidableEq, Repr

/-- Extensions routed to a dataframe read (parser.py lines 17-24). -/
def tabularExts : List String := [".csv", ".xlsx", ".xls", ".json"]

/-- The chart file written per numeric column (parser.py lines 150-151). -/
def chartPaths (d : Dataset) : List String :=
  d.numericIdx.map (fun j =>
    "output/numeric_charts/" ++ d.colNames.getD j "" ++ ".png")

/-- Every file a successful tabular run writes: the README, one chart per
numeric column, the PDF report and the ZIP archive. -/
def tableWrites (d : Dataset) : List String :=
  "output/README.md" :: chartPaths d
    ++ ["output/report.pdf", "output/Auto_Documenter_Output.zip"]

/-- The body of `analyze_file` on a parsed frame.  With zero columns the
ratio computation at parser.py line 42 divides `numeric_count` by
`len(df.columns) = 0`, Python raises ZeroDivisionError, and the
`except` clause returns the error dict before any file is written. -/
def analyzeCore (d : Dataset) : AnalyzeResult × List String :=
  if d.ncols = 0 then (.error "division by zero", [])
  else (.report (mkSummary d), tableWrites d)

/-- `analyze_file` (parser.py lines 10-210), with the files it writes.
A `.py` upload is copied into a README and returns the python dict; an
extension outside the five supported ones returns the unsupported-type
error; a failed dataframe parse is caught and returned as an error dict. -/
def analyzeFile (f : RawFile) : AnalyzeResult × List String :=
  if f.ext ∈ tabularExts then
    match f.outcome with
    | .failure msg => (.error msg, [])
    | .table d => analyzeCore d
  else if f.ext = ".py" then (.pythonDoc f.name, ["output/README.md"])
  else (.error "Unsupported file type", [])

/-! ### Spec-side definitions, for comparison with the code -/

/-- Modelled from the spec: the readiness-score formula exactly as §4
states it, with no guard on the column count. -/
def specScore (completeness dupRatio : ℚ) (numCnt catCnt totCols : ℕ) : ℚ :=
  completeness * (4/10) + (100 - dupRatio) * (3/10)
    + min ((numCnt : ℚ) / (totCols : ℚ)) 1 * 100 * (15/100)
    + min ((catCnt : ℚ) / (totCols : ℚ)) 1 * 100 * (15/100)

/-- Does a text value parse as a number: an optional sign followed by at
least one decimal digit (the reading of "numeric-looking text" in the
classification claim). -/
def strIsNumeric (s : String) : Bool :=
  let ds := if s.data.head? = some '-' then s.data.tail else s.data
  !ds.isEmpty && ds.all Char.isDigit

/-- Does a cell parse as a number, in the sense of the spec's
classification rule?  Missing cells are not constrained by the rule. -/
def valParsesAsNumber : Val → Bool
  | .num _ => true
  | .str s => strIsNumeric s
  | .missing => true

/-! ### Helper lemmas -/

theorem roundHalfEven_nonneg {x : ℚ} (hx : 0 ≤ x) : 0 ≤ roundHalfEven x := by
  have hf : (0 : ℤ) ≤ ⌊x⌋ := Int.floor_nonneg.mpr hx
  unfold roundHalfEven
  split_ifs <;> omega

theorem roundHalfEven_le {x : ℚ} {n : ℤ} (hx : x ≤ (n : ℚ)) :
    roundHalfEven x ≤ n := by
  have hf : ⌊x⌋ ≤ n := by
    have h := Int.floor_mono hx
    rwa [Int.floor_intCast] at h
  have hfl : (⌊x⌋ : ℚ) ≤ x := Int.floor_le x
  unfold roundHalfEven
  split_ifs with h1 h2 h3
  · exact hf
  · have hlt : (⌊x⌋ : ℚ) < (n : ℚ) := by linarith
    exact_mod_cast Int.add_one_le_of_lt (by exact_mod_cast hlt)
  · exact hf
  · have hlt : (⌊x⌋ : ℚ) < (n : ℚ) := by linarith
    exact_mod_cast Int.add_one_le_of_lt (by exact_mod_cast hlt)

theorem abs_sub_roundHalfEven (x : ℚ) : |x - (roundHalfEven x : ℚ)| ≤ 1/2 := by
  have h0 : (⌊x⌋ : ℚ) ≤ x := Int.floor_le x
  have h1 : x < ⌊x⌋ + 1 := Int.lt_floor_add_one x
  unfold roundHalfEven
  split_ifs with ha hb hc <;>
    · rw [abs_le]; push_cast; constructor <;> linarith

theorem round2_nonneg {x : ℚ} (hx : 0 ≤ x) : 0 ≤ round2 x := by
  unfold round2
  have h := roundHalfEven_nonneg (x := x * 100) (by positivity)
  positivity

theorem round2_le_int {x : ℚ} {n : ℤ} (hx : x ≤ (n : ℚ)) : round2 x ≤ (n : ℚ) := by
  unfold round2
  have h : roundHalfEven (x * 100) ≤ n * 100 := by
    apply roundHalfEven_le
    push_cast
    linarith
  rw [div_le_iff₀ (by norm_num : (0:ℚ) < 100)]
  exact_mod_cast h

theorem abs_round2_sub (x : ℚ) : |round2 x - x| ≤ 1/200 := by
  unfold round2
  have h := abs_sub_roundHalfEven (x * 100)
  have h2 : (roundHalfEven (x * 100) : ℚ) / 100 - x
      = ((roundHalfEven (x * 100) : ℚ) - x * 100) / 100 := by ring
  rw [h2, abs_div, abs_of_pos (by norm_num : (0:ℚ) < 100), abs_sub_comm]
  linarith

theorem round2_mem_Icc {x lo hi : ℚ} {n : ℤ} (hlo : 0 ≤ lo) (hx1 : lo ≤ x)
    (hx2 : x ≤ (n : ℚ)) (hhi : (n : ℚ) ≤ hi) : 0 ≤ round2 x ∧ round2 x ≤ hi :=
  ⟨round2_nonneg (le_trans hlo hx1), le_trans (round2_le_int hx2) hhi⟩

theorem filterMap_some_eq_map {α β : Type} (f : α → β) (l : List α) :
    l.filterMap (fun a => some (f a)) = l.map f := by
  induction l with
  | nil => rfl
  | cons a t ih => simp [List.filterMap_cons, ih]

theorem qmean_mem_Icc {l : List ℚ} (hne : l ≠ []) {lo hi : ℚ}
    (h : ∀ v ∈ l, lo ≤ v ∧ v ≤ hi) : lo ≤ qmean l ∧ qmean l ≤ hi := by
  have hlen : 0 < (l.length : ℚ) := by
    have : 0 < l.length := List.length_pos.mpr hne
    exact_mod_cast this
  have hup : l.sum ≤ (l.length : ℚ) * hi := by
    have := List.sum_le_card_nsmul l hi (fun x hx => (h x hx).2)
    rwa [nsmul_eq_mul] at this
  have hlow : (l.length : ℚ) * lo ≤ l.sum := by
    have := List.card_nsmul_le_sum l lo (fun x hx => (h x hx).1)
    rwa [nsmul_eq_mul] at this
  unfold qmean
  constructor
  · rw [le_div_iff₀ hlen]
    linarith
  · rw [div_le_iff₀ hlen]
    linarith

theorem dupCountAux_le (l : List (List Val)) :
    ∀ seen, dupCountAux seen l ≤ l.length := by
  induction l with
  | nil => intro seen; simp [dupCountAux]
  | cons r rs ih =>
      intro seen
      have h := ih (r :: seen)
      unfold dupCountAux
      split_ifs <;> simp <;> omega

theorem missingCount_le_nrows (d : Dataset) (j : ℕ) :
    missingCount (d.col j) ≤ d.nrows := by
  unfold missingCount Dataset.col Dataset.nrows
  calc (d.rows.map (fun r => r.getD j Val.missing)).countP Val.isMissing
      ≤ (d.rows.map (fun r => r.getD j Val.missing)).length :=
        List.countP_le_length _
    _ = d.rows.length := List.length_map _ _

theorem missingPctList_eq (d : Dataset) (h : d.nrows ≠ 0) :
    missingPctList d = (List.range d.ncols).map
      (fun j => round2 ((missingCount (d.col j) : ℚ) / (d.nrows : ℚ) * 100)) := by
  unfold missingPctList colMissingPct
  rw [← filterMap_some_eq_map]
  congr 1
  funext j
  rw [if_neg h]

theorem missingPctList_bounds (d : Dataset) (h : d.nrows ≠ 0) :
    ∀ v ∈ missingPctList d, 0 ≤ v ∧ v ≤ 100 := by
  rw [missingPctList_eq d h]
  intro v hv
  obtain ⟨j, _, rfl⟩ := List.mem_map.mp hv
  have hn : (0:ℚ) < (d.nrows : ℚ) := by
    exact_mod_cast Nat.pos_of_ne_zero h
  have hm : (missingCount (d.col j) : ℚ) ≤ (d.nrows : ℚ) := by
    exact_mod_cast missingCount_le_nrows d j
  have harg1 : (0:ℚ) ≤ (missingCount (d.col j) : ℚ) / (d.nrows : ℚ) * 100 := by
    positivity
  have harg2 : (missingCount (d.col j) : ℚ) / (d.nrows : ℚ) * 100 ≤ 100 := by
    have hq : (missingCount (d.col j) : ℚ) / (d.nrows : ℚ) ≤ 1 :=
      (div_le_one hn).mpr hm
    linarith
  refine ⟨round2_nonneg harg1, ?_⟩
  have := round2_le_int
    (x := (missingCount (d.col j) : ℚ) / (d.nrows : ℚ) * 100) (n := 100)
    (by push_cast; linarith)
  simpa using this

theorem completenessApp_some (d : Dataset) (hr : d.nrows ≠ 0) (hc : d.ncols ≠ 0) :
    ∃ c, completenessApp d = some c ∧ 0 ≤ c ∧ c ≤ 100 := by
  have hlen : (missingPctList d).length = d.ncols := by
    rw [missingPctList_eq d hr, List.length_map, List.length_range]
  have hne : missingPctList d ≠ [] := by
    intro hnil
    rw [hnil] at hlen
    exact hc hlen.symm
  have hmean := qmean_mem_Icc hne (missingPctList_bounds d hr)
  refine ⟨round2 (100 - qmean (missingPctList d)), ?_, ?_, ?_⟩
  · unfold completenessApp missingPctMean
    rw [if_neg (by simpa [List.isEmpty_iff] using hne)]
    rfl
  · exact round2_nonneg (by linarith [hmean.2])
  · have := round2_le_int (x := 100 - qmean (missingPctList d)) (n := 100)
      (by push_cast; linarith [hmean.1])
    simpa using this

theorem duplicatePct_some (d : Dataset) (hr : d.nrows ≠ 0) :
    duplicatePct d = some (round2 ((d.dupCount : ℚ) / (d.nrows : ℚ) * 100)) ∧
      0 ≤ round2 ((d.dupCount : ℚ) / (d.nrows : ℚ) * 100) ∧
      round2 ((d.dupCount : ℚ) / (d.nrows : ℚ) * 100) ≤ 100 := by
  have hn : (0:ℚ) < (d.nrows : ℚ) := by exact_mod_cast Nat.pos_of_ne_zero hr
  have hd : (d.dupCount : ℚ) ≤ (d.nrows : ℚ) := by
    have : d.dupCount ≤ d.nrows := dupCountAux_le d.rows []
    exact_mod_cast this
  have harg1 : (0:ℚ) ≤ (d.dupCount : ℚ) / (d.nrows : ℚ) * 100 := by positivity
  have harg2 : (d.dupCount : ℚ) / (d.nrows : ℚ) * 100 ≤ 100 := by
    have hq : (d.dupCount : ℚ) / (d.nrows : ℚ) ≤ 1 := (div_le_one hn).mpr hd
    linarith
  refine ⟨?_, round2_nonneg harg1, ?_⟩
  · unfold duplicatePct
    rw [if_neg hr]
  · have := round2_le_int
      (x := (d.dupCount : ℚ) / (d.nrows : ℚ) * 100) (n := 100)
      (by push_cast; linarith)
    simpa using this

theorem ratioTerm_mem (count total : ℕ) :
    0 ≤ ratioTerm count total ∧ ratioTerm count total ≤ 1 := by
  unfold ratioTerm
  refine ⟨le_min ?_ (by norm_num), min_le_right _ _⟩
  split_ifs with h
  · positivity
  · exact le_refl 0

theorem totalMissing_le_totalCells (d : Dataset) :
    totalMissing d ≤ totalCells d := by
  unfold totalMissing totalCells
  calc ((List.range d.ncols).map (fun j => missingCount (d.col j))).sum
      ≤ ((List.range d.ncols).map (fun _ => d.nrows)).sum := by
        apply List.sum_le_sum
        intro j _
        exact missingCount_le_nrows d j
    _ = d.nrows * d.ncols := by
        rw [List.map_const', List.sum_replicate, List.length_range, smul_eq_mul,
          Nat.mul_comm]

theorem abs_list_sum_le (l : List ℚ) : |l.sum| ≤ (l.map (fun a => |a|)).sum := by
  induction l with
  | nil => simp
  | cons a t ih =>
      simp only [List.sum_cons, List.map_cons]
      calc |a + t.sum| ≤ |a| + |t.sum| := abs_add _ _
        _ ≤ |a| + (t.map (fun a => |a|)).sum := by linarith

theorem sum_map_sub (f g : ℕ → ℚ) (l : List ℕ) :
    (l.map (fun j => f j - g j)).sum = (l.map f).sum - (l.map g).sum := by
  induction l with
  | nil => simp
  | cons a t ih =>
      simp only [List.sum_cons, List.map_cons, ih]
      ring

/-- The mean of the per-column rounded missing percentages stays within
half a rounding step of the exact global missing percentage: each of the
`ncols` entries carries a rounding error of at most 1/200, and averaging
does not enlarge it. -/
theorem qmean_missingPct_close (d : Dataset) (hr : d.nrows ≠ 0) (hc : d.ncols ≠ 0) :
    |qmean (missingPctList d)
      - 100 * (totalMissing d : ℚ) / (totalCells d : ℚ)| ≤ 1/200 := by
  have hnq : (0:ℚ) < (d.nrows : ℚ) := by exact_mod_cast Nat.pos_of_ne_zero hr
  have hcq : (0:ℚ) < (d.ncols : ℚ) := by exact_mod_cast Nat.pos_of_ne_zero hc
  have hN : (totalCells d : ℚ) = (d.nrows : ℚ) * (d.ncols : ℚ) := by
    unfold totalCells
    push_cast
    ring
  have hLeq := missingPctList_eq d hr
  have hlen : (missingPctList d).length = d.ncols := by
    rw [hLeq, List.length_map, List.length_range]
  have hsump : ((List.range d.ncols).map
      (fun j => (missingCount (d.col j) : ℚ) / (d.nrows : ℚ) * 100)).sum
      = 100 * (totalMissing d : ℚ) / (d.nrows : ℚ) := by
    have h1 : (fun j => (missingCount (d.col j) : ℚ) / (d.nrows : ℚ) * 100)
        = (fun j => (missingCount (d.col j) : ℚ) * (100 / (d.nrows : ℚ))) := by
      funext j
      ring
    rw [h1, List.sum_map_mul_right]
    have hcast : ((List.range d.ncols).map
        (fun j => (missingCount (d.col j) : ℚ))).sum = (totalMissing d : ℚ) := by
      unfold totalMissing
      rw [Nat.cast_list_sum, List.map_map]
      rfl
    rw [hcast]
    ring
  have hE := sum_map_sub
    (fun j => round2 ((missingCount (d.col j) : ℚ) / (d.nrows : ℚ) * 100))
    (fun j => (missingCount (d.col j) : ℚ) / (d.nrows : ℚ) * 100)
    (List.range d.ncols)
  have hdiff : qmean (missingPctList d)
      - 100 * (totalMissing d : ℚ) / (totalCells d : ℚ)
      = ((List.range d.ncols).map
          (fun j => round2 ((missingCount (d.col j) : ℚ) / (d.nrows : ℚ) * 100)
            - (missingCount (d.col j) : ℚ) / (d.nrows : ℚ) * 100)).sum
        / (d.ncols : ℚ) := by
    unfold qmean
    rw [hlen, hLeq, hN, hE, hsump]
    field_simp
    ring
  rw [hdiff, abs_div, abs_of_pos hcq, div_le_iff₀ hcq]
  have habs := abs_list_sum_le ((List.range d.ncols).map
    (fun j => round2 ((missingCount (d.col j) : ℚ) / (d.nrows : ℚ) * 100)
      - (missingCount (d.col j) : ℚ) / (d.nrows : ℚ) * 100))
  rw [List.map_map] at habs
  have hbound : ∀ x ∈ (List.range d.ncols).map ((fun a => |a|) ∘
      (fun j => round2 ((missingCount (d.col j) : ℚ) / (d.nrows : ℚ) * 100)
        - (missingCount (d.col j) : ℚ) / (d.nrows : ℚ) * 100)), x ≤ 1/200 := by
    intro x hx
    obtain ⟨j, _, rfl⟩ := List.mem_map.mp hx
    exact abs_round2_sub _
  have hsum_le := List.sum_le_card_nsmul _ (1/200 : ℚ) hbound
  rw [List.length_map, List.length_range, nsmul_eq_mul] at hsum_le
  calc |((List.range d.ncols).map
      (fun j => round2 ((missingCount (d.col j) : ℚ) / (d.nrows : ℚ) * 100)
        - (missingCount (d.col j) : ℚ) / (d.nrows : ℚ) * 100)).sum|
      ≤ ((List.range d.ncols).map ((fun a => |a|) ∘
          (fun j => round2 ((missingCount (d.col j) : ℚ) / (d.nrows : ℚ) * 100)
            - (missingCount (d.col j) : ℚ) / (d.nrows : ℚ) * 100))).sum := habs
    _ ≤ (d.ncols : ℚ) * (1/200) := hsum_le
    _ = 1/200 * (d.ncols : ℚ) := by ring

/-- The dashboard completeness (app.py): defined whenever the frame has a
cell, bounded in [0, 100], and within three rounding steps (0.015) of the
parser formula round2(100·nonMissing/cells) — but, rounding per column
first, not always equal to it. -/
theorem completenessApp_close (d : Dataset) (h : totalCells d ≠ 0) :
    ∃ c, completenessApp d = some c ∧
      |c - round2 (100 * (nonMissingCells d : ℚ) / (totalCells d : ℚ))| ≤ 3/200 ∧
      0 ≤ c ∧ c ≤ 100 := by
  have hmul : d.nrows * d.ncols ≠ 0 := h
  have hr : d.nrows ≠ 0 := by
    intro h0
    exact hmul (by rw [h0, Nat.zero_mul])
  have hc : d.ncols ≠ 0 := by
    intro h0
    exact hmul (by rw [h0, Nat.mul_zero])
  have hNpos : (0:ℚ) < (totalCells d : ℚ) := by exact_mod_cast Nat.pos_of_ne_zero h
  obtain ⟨c0, hceq, hc0, hc100⟩ := completenessApp_some d hr hc
  have hlen : (missingPctList d).length = d.ncols := by
    rw [missingPctList_eq d hr, List.length_map, List.length_range]
  have hne : missingPctList d ≠ [] := by
    intro hnil
    rw [hnil] at hlen
    exact hc hlen.symm
  have hform : completenessApp d = some (round2 (100 - qmean (missingPctList d))) := by
    unfold completenessApp missingPctMean
    rw [if_neg (by simpa [List.isEmpty_iff] using hne)]
    rfl
  have hc0eq : c0 = round2 (100 - qmean (missingPctList d)) := by
    rw [hform] at hceq
    exact (Option.some.inj hceq).symm
  have hMle : (totalMissing d : ℚ) ≤ (totalCells d : ℚ) := by
    exact_mod_cast totalMissing_le_totalCells d
  have hnm : (nonMissingCells d : ℚ) = (totalCells d : ℚ) - (totalMissing d : ℚ) := by
    unfold nonMissingCells
    exact_mod_cast Nat.cast_sub (totalMissing_le_totalCells d)
  have hex : 100 * (nonMissingCells d : ℚ) / (totalCells d : ℚ)
      = 100 - 100 * (totalMissing d : ℚ) / (totalCells d : ℚ) := by
    rw [hnm]
    field_simp
    ring
  have hclose := qmean_missingPct_close d hr hc
  have h1 : |round2 (100 - qmean (missingPctList d)) - (100 - qmean (missingPctList d))|
      ≤ 1/200 := abs_round2_sub _
  have h2 : |(100 - qmean (missingPctList d))
      - 100 * (nonMissingCells d : ℚ) / (totalCells d : ℚ)| ≤ 1/200 := by
    rw [hex]
    have heq2 : (100 - qmean (missingPctList d))
        - (100 - 100 * (totalMissing d : ℚ) / (totalCells d : ℚ))
        = -(qmean (missingPctList d)
            - 100 * (totalMissing d : ℚ) / (totalCells d : ℚ)) := by ring
    rw [heq2, abs_neg]
    exact hclose
  have h3 : |100 * (nonMissingCells d : ℚ) / (totalCells d : ℚ)
      - round2 (100 * (nonMissingCells d : ℚ) / (totalCells d : ℚ))| ≤ 1/200 := by
    have := abs_round2_sub (100 * (nonMissingCells d : ℚ) / (totalCells d : ℚ))
    rwa [abs_sub_comm] at this
  refine ⟨c0, hceq, ?_, hc0, hc100⟩
  have key : c0 - round2 (100 * (nonMissingCells d : ℚ) / (totalCells d : ℚ))
      = (round2 (100 - qmean (missingPctList d)) - (100 - qmean (missingPctList d)))
        + ((100 - qmean (missingPctList d))
            - 100 * (nonMissingCells d : ℚ) / (totalCells d : ℚ))
        + (100 * (nonMissingCells d : ℚ) / (totalCells d : ℚ)
            - round2 (100 * (nonMissingCells d : ℚ) / (totalCells d : ℚ))) := by
    rw [hc0eq]
    ring
  rw [key]
  calc |(round2 (100 - qmean (missingPctList d)) - (100 - qmean (missingPctList d)))
        + ((100 - qmean (missingPctList d))
            - 100 * (nonMissingCells d : ℚ) / (totalCells d : ℚ))
        + (100 * (nonMissingCells d : ℚ) / (totalCells d : ℚ)
            - round2 (100 * (nonMissingCells d : ℚ) / (totalCells d : ℚ)))|
      ≤ |(round2 (100 - qmean (missingPctList d)) - (100 - qmean (missingPctList d)))
          + ((100 - qmean (missingPctList d))
              - 100 * (nonMissingCells d : ℚ) / (totalCells d : ℚ))|
        + |100 * (nonMissingCells d : ℚ) / (totalCells d : ℚ)
            - round2 (100 * (nonMissingCells d : ℚ) / (totalCells d : ℚ))| :=
        abs_add _ _
    _ ≤ |round2 (100 - qmean (missingPctList d)) - (100 - qmean (missingPctList d))|
        + |(100 - qmean (missingPctList d))
            - 100 * (nonMissingCells d : ℚ) / (totalCells d : ℚ)|
        + |100 * (nonMissingCells d : ℚ) / (totalCells d : ℚ)
            - round2 (100 * (nonMissingCells d : ℚ) / (totalCells d : ℚ))| := by
        have := abs_add
          (round2 (100 - qmean (missingPctList d)) - (100 - qmean (missingPctList d)))
          ((100 - qmean (missingPctList d))
            - 100 * (nonMissingCells d : ℚ) / (totalCells d : ℚ))
        linarith
    _ ≤ 3/200 := by linarith

theorem numericDtype_iff (c : List Val) :
    numericDtype c = true ↔ c ≠ [] ∧ ∀ v ∈ c, v.isStr = false := by
  unfold numericDtype
  rw [Bool.and_eq_true, Bool.not_eq_true', List.all_eq_true]
  constructor
  · rintro ⟨h1, h2⟩
    refine ⟨?_, fun v hv => by simpa using h2 v hv⟩
    intro hnil
    rw [hnil] at h1
    simp at h1
  · rintro ⟨h1, h2⟩
    refine ⟨?_, fun v hv => by simpa using h2 v hv⟩
    cases c with
    | nil => exact absurd rfl h1
    | cons a t => rfl

theorem length_filter_add_length_filter_not {α : Type} (p : α → Bool) (l : List α) :
    (l.filter p).length + (l.filter (fun a => !(p a))).length = l.length := by
  induction l with
  | nil => rfl
  | cons a t ih =>
      by_cases h : p a = true <;>
        simp [List.filter_cons, h, Nat.succ_eq_add_one] <;> omega

/-! ### Claims -/

/-- C1: for every dataset with at least one column, the readiness score the
dashboard computes equals completeness·0.4 + (100 − duplicate)·0.3 +
min(numeric/total, 1)·100·0.15 + min(categorical/total, 1)·100·0.15 rounded
to 2 decimals, applied to the computed completeness and duplicate
percentages (an undefined percentage propagating to an undefined score). -/
theorem C1_readiness_score_formula (d : Dataset) (h : 1 ≤ d.ncols) :
    mlReadyScore d = (completenessApp d).bind (fun c =>
      (duplicatePct d).map (fun p =>
        round2 (specScore c p (numericCount d) (categoricalCount d) d.ncols))) := by
  have h0 : 0 < d.ncols := h
  unfold mlReadyScore specScore ratioTerm
  simp only [if_pos h0]
  cases completenessApp d <;> cases duplicatePct d <;> rfl

/-- C1 witness: the score formula instantiated at a concrete one-column
dataset. -/
theorem C1_readiness_score_formula_witness :
    1 ≤ (Dataset.mk ["a"] [[Val.num 3]]).ncols ∧
      mlReadyScore (Dataset.mk ["a"] [[Val.num 3]]) =
        (completenessApp (Dataset.mk ["a"] [[Val.num 3]])).bind (fun c =>
          (duplicatePct (Dataset.mk ["a"] [[Val.num 3]])).map (fun p =>
            round2 (specScore c p (numericCount (Dataset.mk ["a"] [[Val.num 3]]))
              (categoricalCount (Dataset.mk ["a"] [[Val.num 3]]))
              (Dataset.mk ["a"] [[Val.num 3]]).ncols))) :=
  ⟨by decide, C1_readiness_score_formula (Dataset.mk ["a"] [[Val.num 3]]) (by decide)⟩

/-- C2 counterexample: on a three-column, zero-row dataset (zero total
cells) both completeness computations are NaN (undefined), not the claimed
defined value 100; and on a 2-column, 3-row dataset with one missing cell
the dashboard completeness (app.py, which rounds each per-column missing
percentage before averaging) is 83.34 while the claimed rounded global
formula gives 83.33, so the dashboard completeness does not equal the
claimed formula even away from the zero-cell edge. -/
theorem C2_completeness_counterexample :
    completenessParser (Dataset.mk ["a", "b", "c"] []) = none
    ∧ completenessApp (Dataset.mk ["a", "b", "c"] []) = none
    ∧ completenessApp (Dataset.mk ["a", "b"]
        [[Val.missing, Val.num 1], [Val.num 1, Val.num 1], [Val.num 1, Val.num 1]])
      = some (8334/100)
    ∧ round2 (100 * (nonMissingCells (Dataset.mk ["a", "b"]
        [[Val.missing, Val.num 1], [Val.num 1, Val.num 1], [Val.num 1, Val.num 1]]) : ℚ)
        / (totalCells (Dataset.mk ["a", "b"]
        [[Val.missing, Val.num 1], [Val.num 1, Val.num 1], [Val.num 1, Val.num 1]]) : ℚ))
      = 8333/100 := by
  decide

/-- C2 amended: when the dataset has at least one cell, the analyze_file
completeness (parser.py) is exactly 100·(non-missing cells)/(total cells)
rounded to 2 decimals and lies in [0, 100]; the dashboard completeness
(app.py) is defined, lies in [0, 100], and stays within 0.015 of that
rounded formula, but rounds per column first and can differ from it.  With
zero total cells both computations divide by zero and yield NaN, not 100. -/
theorem C2_completeness_formula (d : Dataset) (h : totalCells d ≠ 0) :
    (∃ c, completenessParser d = some c ∧
      c = round2 (100 * (nonMissingCells d : ℚ) / (totalCells d : ℚ)) ∧
      0 ≤ c ∧ c ≤ 100)
    ∧ (∃ c, completenessApp d = some c ∧
      |c - round2 (100 * (nonMissingCells d : ℚ) / (totalCells d : ℚ))| ≤ 3/200 ∧
      0 ≤ c ∧ c ≤ 100) := by
  refine ⟨?_, completenessApp_close d h⟩
  have hpos : (0:ℚ) < (totalCells d : ℚ) := by exact_mod_cast Nat.pos_of_ne_zero h
  have hm : (totalMissing d : ℚ) ≤ (totalCells d : ℚ) := by
    exact_mod_cast totalMissing_le_totalCells d
  have hcast : (nonMissingCells d : ℚ)
      = (totalCells d : ℚ) - (totalMissing d : ℚ) := by
    unfold nonMissingCells
    exact_mod_cast Nat.cast_sub (totalMissing_le_totalCells d)
  have hnum : (0:ℚ) ≤ (totalCells d : ℚ) - (totalMissing d : ℚ) := by linarith
  have harg1 : (0:ℚ) ≤ ((totalCells d : ℚ) - (totalMissing d : ℚ))
      / (totalCells d : ℚ) * 100 :=
    mul_nonneg (div_nonneg hnum hpos.le) (by norm_num)
  have harg2 : ((totalCells d : ℚ) - (totalMissing d : ℚ))
      / (totalCells d : ℚ) * 100 ≤ 100 := by
    have hq : ((totalCells d : ℚ) - (totalMissing d : ℚ)) / (totalCells d : ℚ) ≤ 1 :=
      (div_le_one hpos).mpr (by linarith)
    linarith
  refine ⟨_, ?_, ?_, round2_nonneg harg1, ?_⟩
  · unfold completenessParser
    rw [if_neg h]
  · congr 1
    rw [hcast]
    ring
  · have := round2_le_int
      (x := ((totalCells d : ℚ) - (totalMissing d : ℚ)) / (totalCells d : ℚ) * 100)
      (n := 100) (by push_cast; linarith)
    simpa using this

/-- C2 witness: the amended completeness description at a concrete
two-cell dataset with one missing cell. -/
theorem C2_completeness_formula_witness :
    totalCells (Dataset.mk ["a"] [[Val.num 1], [Val.missing]]) ≠ 0 ∧
      ((∃ c, completenessParser (Dataset.mk ["a"] [[Val.num 1], [Val.missing]]) = some c ∧
        c = round2 (100 * (nonMissingCells (Dataset.mk ["a"] [[Val.num 1], [Val.missing]]) : ℚ)
          / (totalCells (Dataset.mk ["a"] [[Val.num 1], [Val.missing]]) : ℚ)) ∧
        0 ≤ c ∧ c ≤ 100)
      ∧ (∃ c, completenessApp (Dataset.mk ["a"] [[Val.num 1], [Val.missing]]) = some c ∧
        |c - round2 (100 * (nonMissingCells (Dataset.mk ["a"] [[Val.num 1], [Val.missing]]) : ℚ)
          / (totalCells (Dataset.mk ["a"] [[Val.num 1], [Val.missing]]) : ℚ))| ≤ 3/200 ∧
        0 ≤ c ∧ c ≤ 100)) :=
  ⟨by decide, C2_completeness_formula (Dataset.mk ["a"] [[Val.num 1], [Val.missing]]) (by decide)⟩

/-- C3 counterexample: on a valid zero-row, two-column dataset the readiness
score is NaN (the mean of the empty missing-percentage series is NaN), so
no number in [0, 100] is returned. -/
theorem C3_zero_rows_counterexample :
    mlReadyScore (Dataset.mk ["x", "y"] []) = none := by decide

/-- C3 amended: for every dataset with at least one row and one column the
readiness score is defined and lies in [0, 100]; with zero rows (or zero
columns) it is NaN. -/
theorem C3_score_in_range (d : Dataset) (hr : 1 ≤ d.nrows) (hc : 1 ≤ d.ncols) :
    ∃ s, mlReadyScore d = some s ∧ 0 ≤ s ∧ s ≤ 100 := by
  obtain ⟨c, hceq, hc0, hc100⟩ := completenessApp_some d (by omega) (by omega)
  obtain ⟨hpeq, hp0, hp100⟩ := duplicatePct_some d (by omega)
  set p := round2 ((d.dupCount : ℚ) / (d.nrows : ℚ) * 100) with hpdef
  set t1 := ratioTerm (numericCount d) d.ncols with ht1def
  set t2 := ratioTerm (categoricalCount d) d.ncols with ht2def
  obtain ⟨ht10, ht11⟩ := ratioTerm_mem (numericCount d) d.ncols
  obtain ⟨ht20, ht21⟩ := ratioTerm_mem (categoricalCount d) d.ncols
  rw [← ht1def] at ht10 ht11
  rw [← ht2def] at ht20 ht21
  refine ⟨round2 (c * (4/10) + (100 - p) * (3/10) + t1 * 100 * (15/100)
    + t2 * 100 * (15/100)), ?_, ?_, ?_⟩
  · unfold mlReadyScore
    rw [hceq, hpeq]
  · exact round2_nonneg (by linarith)
  · have := round2_le_int
      (x := c * (4/10) + (100 - p) * (3/10) + t1 * 100 * (15/100)
        + t2 * 100 * (15/100))
      (n := 100) (by push_cast; linarith)
    simpa using this

/-- C3 witness: the amended range property at a concrete dataset with one
numeric and one text column. -/
theorem C3_score_in_range_witness :
    1 ≤ (Dataset.mk ["a", "b"] [[Val.num 1, Val.str "u"]]).nrows ∧
      1 ≤ (Dataset.mk ["a", "b"] [[Val.num 1, Val.str "u"]]).ncols ∧
      ∃ s, mlReadyScore (Dataset.mk ["a", "b"] [[Val.num 1, Val.str "u"]]) = some s ∧
        0 ≤ s ∧ s ≤ 100 :=
  ⟨by decide, by decide,
    C3_score_in_range (Dataset.mk ["a", "b"] [[Val.num 1, Val.str "u"]])
      (by decide) (by decide)⟩

/-- C6 counterexample: on a one-column, zero-row dataset the duplicate
percentage is NaN (mean of an empty boolean series), not the claimed 0. -/
theorem C6_zero_rows_counterexample :
    duplicatePct (Dataset.mk ["a"] []) = none := by decide

/-- C6 amended: for every dataset with at least one row the duplicate
percentage is 100·(duplicated rows)/(row count) rounded to 2 decimals and
lies in [0, 100]; with zero rows it is NaN. -/
theorem C6_duplicate_ratio (d : Dataset) (h : 1 ≤ d.nrows) :
    ∃ p, duplicatePct d = some p ∧
      p = round2 (100 * (d.dupCount : ℚ) / (d.nrows : ℚ)) ∧
      0 ≤ p ∧ p ≤ 100 := by
  obtain ⟨heq, h0, h100⟩ := duplicatePct_some d (by omega)
  refine ⟨_, heq, ?_, h0, h100⟩
  congr 1
  ring

/-- C6 witness: the amended duplicate ratio at a concrete dataset with one
duplicated row. -/
theorem C6_duplicate_ratio_witness :
    1 ≤ (Dataset.mk ["a"] [[Val.num 2], [Val.num 2]]).nrows ∧
      ∃ p, duplicatePct (Dataset.mk ["a"] [[Val.num 2], [Val.num 2]]) = some p ∧
        p = round2 (100 * ((Dataset.mk ["a"] [[Val.num 2], [Val.num 2]]).dupCount : ℚ)
          / ((Dataset.mk ["a"] [[Val.num 2], [Val.num 2]]).nrows : ℚ)) ∧
        0 ≤ p ∧ p ≤ 100 :=
  ⟨by decide, C6_duplicate_ratio (Dataset.mk ["a"] [[Val.num 2], [Val.num 2]]) (by decide)⟩

/-- C4 counterexample: a column holding the text values "1" and "2" (as a
JSON upload of quoted numbers produces) has every non-missing value parsing
as a number, yet `select_dtypes` leaves it categorical: classification
follows the stored dtype, not value parsing. -/
theorem C4_text_number_counterexample :
    ((Dataset.mk ["a"] [[Val.str "1"], [Val.str "2"]]).col 0).all valParsesAsNumber
      = true
    ∧ (Dataset.mk ["a"] [[Val.str "1"], [Val.str "2"]]).numericIdx = [] := by
  decide

/-- C4 amended: a column is classified numeric exactly when its stored
dtype is numeric, that is when the column is nonempty and holds no text
value; a text column whose values merely parse as numbers is categorical. -/
theorem C4_dtype_classification (d : Dataset) (j : ℕ) :
    j ∈ d.numericIdx
      ↔ j < d.ncols ∧ d.col j ≠ [] ∧ ∀ v ∈ d.col j, v.isStr = false := by
  unfold Dataset.numericIdx
  simp only [List.mem_filter, List.mem_range, numericDtype_iff, and_assoc]

/-- C4 witness: the amended classification rule at a concrete one-number
column. -/
theorem C4_dtype_classification_witness :
    0 ∈ (Dataset.mk ["n"] [[Val.num 1]]).numericIdx :=
  (C4_dtype_classification (Dataset.mk ["n"] [[Val.num 1]]) 0).mpr
    ⟨by decide, by decide, by decide⟩

/-- C5 counterexample: with a varying column `x` and a constant column `c`,
the correlation result still contains the pair (x, c) — as an undefined
(NaN) entry — rather than omitting it. -/
theorem C5_constant_column_counterexample :
    corrMatrix (Dataset.mk ["x", "c"]
        [[Val.num 1, Val.num 5], [Val.num 2, Val.num 5], [Val.num 3, Val.num 5]])
      = [(0, 1, none)] := by decide

/-- C5 amended: the correlation result has one entry per unordered pair of
numeric columns, and an entry is undefined (NaN) exactly when one of its
columns has zero variance over the paired observations; such pairs are
present with a NaN value, not absent. -/
theorem C5_corr_pairs (d : Dataset) :
    (corrMatrix d).map (fun t => (t.1, t.2.1)) = unorderedPairs d.numericIdx
    ∧ ∀ i j e, (i, j, e) ∈ corrMatrix d →
        (e = none
          ↔ varNum ((pairedObs (d.col i) (d.col j)).map Prod.fst) = 0
            ∨ varNum ((pairedObs (d.col i) (d.col j)).map Prod.snd) = 0) := by
  constructor
  · unfold corrMatrix
    rw [List.map_map]
    have hcomp : ((fun t : ℕ × ℕ × Option CorrVal => (t.1, t.2.1)) ∘
        (fun p : ℕ × ℕ => (p.1, p.2, corrEntry (d.col p.1) (d.col p.2))))
        = fun p : ℕ × ℕ => p := by
      funext p
      rfl
    rw [hcomp, List.map_id']
  · intro i j e he
    unfold corrMatrix at he
    obtain ⟨p, _, heq⟩ := List.mem_map.mp he
    simp only [Prod.ext_iff] at heq
    obtain ⟨hi, hj, he'⟩ := heq
    subst hi
    subst hj
    subst he'
    unfold corrEntry
    dsimp only
    split_ifs with hv
    · simp [hv]
    · simp [hv]

/-- C5 witness: the amended description at a concrete frame whose first
column is constant, giving the present-but-NaN entry. -/
theorem C5_corr_pairs_witness :
    ((none : Option CorrVal) = none
      ↔ varNum ((pairedObs
          ((Dataset.mk ["u", "v"] [[Val.num 7, Val.num 1], [Val.num 7, Val.num 2]]).col 0)
          ((Dataset.mk ["u", "v"] [[Val.num 7, Val.num 1], [Val.num 7, Val.num 2]]).col 1)).map
            Prod.fst) = 0
        ∨ varNum ((pairedObs
          ((Dataset.mk ["u", "v"] [[Val.num 7, Val.num 1], [Val.num 7, Val.num 2]]).col 0)
          ((Dataset.mk ["u", "v"] [[Val.num 7, Val.num 1], [Val.num 7, Val.num 2]]).col 1)).map
            Prod.snd) = 0) :=
  (C5_corr_pairs (Dataset.mk ["u", "v"] [[Val.num 7, Val.num 1], [Val.num 7, Val.num 2]])).2
    0 1 none (by decide)

/-- C7 counterexample: a dataset with two numeric columns (and a defined
score) receives the high-readiness algorithm list; no "regression-family"
flag is emitted, refuting emission by column composition. -/
theorem C7_bucket_counterexample :
    numericCount (Dataset.mk ["a", "b"]
        [[Val.num 1, Val.num 2], [Val.num 3, Val.num 4]]) = 2
    ∧ mlSuggestions (Dataset.mk ["a", "b"]
        [[Val.num 1, Val.num 2], [Val.num 3, Val.num 4]])
      = some ["XGBoost", "Neural Networks", "Ensemble Models", "AutoML"]
    ∧ "regression-family" ∉ ["XGBoost", "Neural Networks", "Ensemble Models", "AutoML"] := by
  decide

/-- C7 amended: the dashboard emits exactly one score-threshold bucket of
algorithm names (low < 40 ≤ moderate < 70 ≤ high), a function of the
readiness score alone; none of the flags "regression-family",
"classification-family", "clustering-family" is ever emitted. -/
theorem C7_suggestions_by_score (d : Dataset) (s : ℚ) (h : mlReadyScore d = some s) :
    mlSuggestions d = some (suggestionsFor s)
    ∧ (suggestionsFor s = ["Linear/Logistic Regression", "Naive Bayes"]
      ∨ suggestionsFor s = ["Decision Tree", "Random Forest", "KNN", "SVM"]
      ∨ suggestionsFor s = ["XGBoost", "Neural Networks", "Ensemble Models", "AutoML"])
    ∧ "regression-family" ∉ suggestionsFor s
    ∧ "classification-family" ∉ suggestionsFor s
    ∧ "clustering-family" ∉ suggestionsFor s := by
  refine ⟨?_, ?_, ?_, ?_, ?_⟩
  · unfold mlSuggestions
    rw [h]
    rfl
  all_goals unfold suggestionsFor
  all_goals split_ifs <;> decide

/-- C7 witness: the amended suggestion behaviour at a concrete all-numeric
dataset whose score is 85. -/
theorem C7_suggestions_by_score_witness :
    mlSuggestions (Dataset.mk ["p", "q"] [[Val.num 0, Val.num 10], [Val.num 5, Val.num 10]])
      = some (suggestionsFor 85)
    ∧ (suggestionsFor 85 = ["Linear/Logistic Regression", "Naive Bayes"]
      ∨ suggestionsFor 85 = ["Decision Tree", "Random Forest", "KNN", "SVM"]
      ∨ suggestionsFor 85 = ["XGBoost", "Neural Networks", "Ensemble Models", "AutoML"])
    ∧ "regression-family" ∉ suggestionsFor 85
    ∧ "classification-family" ∉ suggestionsFor 85
    ∧ "clustering-family" ∉ suggestionsFor 85 :=
  C7_suggestions_by_score
    (Dataset.mk ["p", "q"] [[Val.num 0, Val.num 10], [Val.num 5, Val.num 10]]) 85 (by decide)

/-- C8: an upload whose source cannot be parsed into a dataframe is
surfaced as an error value — an unknown extension gives the
unsupported-type error, a raised parse failure is caught and returned as
the error dict — and a report summary is produced only from a successfully
parsed frame, never out of a failure. -/
theorem C8_errors_surfaced (f : RawFile) :
    (f.ext ∉ tabularExts → f.ext ≠ ".py" →
      analyzeFile f = (.error "Unsupported file type", []))
    ∧ (∀ msg, f.ext ∈ tabularExts → f.outcome = .failure msg →
        analyzeFile f = (.error msg, []))
    ∧ (∀ s w, analyzeFile f = (.report s, w) →
        ∃ d, f.outcome = .table d ∧ f.ext ∈ tabularExts ∧ s = mkSummary d) := by
  refine ⟨?_, ?_, ?_⟩
  · intro h1 h2
    unfold analyzeFile
    rw [if_neg h1, if_neg h2]
  · intro msg h1 h2
    unfold analyzeFile
    rw [if_pos h1, h2]
  · intro s w h
    unfold analyzeFile at h
    by_cases h1 : f.ext ∈ tabularExts
    · rw [if_pos h1] at h
      revert h
      cases ho : f.outcome with
      | table d =>
          intro h
          dsimp only at h
          unfold analyzeCore at h
          by_cases h2 : d.ncols = 0
          · rw [if_pos h2] at h
            simp at h
          · rw [if_neg h2] at h
            simp only [Prod.mk.injEq, AnalyzeResult.report.injEq] at h
            exact ⟨d, rfl, h1, h.1.symm⟩
      | failure m =>
          intro h
          simp at h
    · rw [if_neg h1] at h
      by_cases h2 : f.ext = ".py"
      · rw [if_pos h2] at h
        simp at h
      · rw [if_neg h2] at h
        simp at h

/-- C8 witness: an upload with an unsupported extension is answered with
the unsupported-type error value and no summary. -/
theorem C8_errors_surfaced_witness :
    analyzeFile (RawFile.mk "weird.txt" ".txt" (.failure "boom"))
      = (.error "Unsupported file type", []) :=
  (C8_errors_surfaced (RawFile.mk "weird.txt" ".txt" (.failure "boom"))).1
    (by decide) (by decide)

/-- C9 counterexample: analyzing a concrete one-column CSV writes files —
the README and the PDF report among them — so the profiling computation is
not free of I/O. -/
theorem C9_profiling_writes_counterexample :
    (analyzeFile (RawFile.mk "d.csv" ".csv"
        (.table (Dataset.mk ["a"] [[Val.num 1]])))).2 ≠ []
    ∧ "output/README.md" ∈ (analyzeFile (RawFile.mk "d.csv" ".csv"
        (.table (Dataset.mk ["a"] [[Val.num 1]])))).2
    ∧ "output/report.pdf" ∈ (analyzeFile (RawFile.mk "d.csv" ".csv"
        (.table (Dataset.mk ["a"] [[Val.num 1]])))).2 := by
  decide

/-- C9 amended: on every successfully parsed tabular upload the analysis
itself writes the README, one chart per numeric column, the PDF report and
the ZIP archive; the I/O is performed inside `analyze_file`, not delegated
to external collaborators. -/
theorem C9_analysis_writes_files (f : RawFile) (d : Dataset)
    (h1 : f.ext ∈ tabularExts) (h2 : f.outcome = .table d) (h3 : 1 ≤ d.ncols) :
    (analyzeFile f).2 = tableWrites d
    ∧ "output/README.md" ∈ tableWrites d
    ∧ "output/report.pdf" ∈ tableWrites d
    ∧ "output/Auto_Documenter_Output.zip" ∈ tableWrites d := by
  refine ⟨?_, ?_, ?_, ?_⟩
  · unfold analyzeFile
    rw [if_pos h1, h2]
    dsimp only
    unfold analyzeCore
    rw [if_neg (by omega : ¬ d.ncols = 0)]
  · exact List.mem_cons_self _ _
  · exact List.mem_cons_of_mem _ (List.mem_append_right _ (List.mem_cons_self _ _))
  · exact List.mem_cons_of_mem _
      (List.mem_append_right _ (List.mem_cons_of_mem _ (List.mem_cons_self _ _)))

/-- C9 witness: the amended write-trace description at a concrete JSON
upload with one text column. -/
theorem C9_analysis_writes_files_witness :
    (analyzeFile (RawFile.mk "t.json" ".json"
        (.table (Dataset.mk ["b"] [[Val.str "v"]])))).2
      = tableWrites (Dataset.mk ["b"] [[Val.str "v"]])
    ∧ "output/README.md" ∈ tableWrites (Dataset.mk ["b"] [[Val.str "v"]])
    ∧ "output/report.pdf" ∈ tableWrites (Dataset.mk ["b"] [[Val.str "v"]])
    ∧ "output/Auto_Documenter_Output.zip" ∈ tableWrites (Dataset.mk ["b"] [[Val.str "v"]]) :=
  C9_analysis_writes_files (RawFile.mk "t.json" ".json"
    (.table (Dataset.mk ["b"] [[Val.str "v"]]))) (Dataset.mk ["b"] [[Val.str "v"]])
    (by decide) (by decide) (by decide)

/-- C10: on every frame the analysis summarizes (it has at least one
column, else the ratio computation raises), the dtype split is a
partition — numeric and categorical counts sum to the column count — and
the two rounded percentage ratios sum to 100 up to the rounding error of
each (at most 0.005 apiece, so 0.01 together). -/
theorem C10_column_partition (d : Dataset) (h : 1 ≤ d.ncols) :
    (mkSummary d).numericCnt + (mkSummary d).categoricalCnt = (mkSummary d).columnCount
    ∧ |(mkSummary d).numericRatio + (mkSummary d).categoricalRatio - 100| ≤ 1/100 := by
  have hcount : numericCount d + categoricalCount d = d.ncols := by
    unfold numericCount categoricalCount Dataset.numericIdx Dataset.categoricalIdx
    rw [length_filter_add_length_filter_not]
    exact List.length_range d.ncols
  have hc : (0:ℚ) < (d.ncols : ℚ) := by
    have : 0 < d.ncols := h
    exact_mod_cast this
  have hnk : (numericCount d : ℚ) + (categoricalCount d : ℚ) = (d.ncols : ℚ) := by
    exact_mod_cast hcount
  refine ⟨hcount, ?_⟩
  set x := (numericCount d : ℚ) / (d.ncols : ℚ) * 100 with hxdef
  set y := (categoricalCount d : ℚ) / (d.ncols : ℚ) * 100 with hydef
  have hsum : x + y = 100 := by
    rw [hxdef, hydef]
    field_simp
    linarith
  have hx := abs_round2_sub x
  have hy := abs_round2_sub y
  have heq : round2 x + round2 y - 100 = (round2 x - x) + (round2 y - y) := by
    linarith
  show |round2 x + round2 y - 100| ≤ 1/100
  calc |round2 x + round2 y - 100| = |(round2 x - x) + (round2 y - y)| := by rw [heq]
    _ ≤ |round2 x - x| + |round2 y - y| := abs_add _ _
    _ ≤ 1/100 := by linarith

/-- C10 witness: the partition and ratio-sum property at a concrete frame
with one numeric and one text column. -/
theorem C10_column_partition_witness :
    1 ≤ (Dataset.mk ["m", "s"] [[Val.num 1, Val.str "a"]]).ncols ∧
      ((mkSummary (Dataset.mk ["m", "s"] [[Val.num 1, Val.str "a"]])).numericCnt
          + (mkSummary (Dataset.mk ["m", "s"] [[Val.num 1, Val.str "a"]])).categoricalCnt
          = (mkSummary (Dataset.mk ["m", "s"] [[Val.num 1, Val.str "a"]])).columnCount
        ∧ |(mkSummary (Dataset.mk ["m", "s"] [[Val.num 1, Val.str "a"]])).numericRatio
          + (mkSummary (Dataset.mk ["m", "s"] [[Val.num 1, Val.str "a"]])).categoricalRatio
          - 100| ≤ 1/100) :=
  ⟨by decide, C10_column_partition (Dataset.mk ["m", "s"] [[Val.num 1, Val.str "a"]]) (by decide)⟩

end AutoDoc
